import Mathlib

/-!
Verification of the polymorphic resource/content subsystem of the Tekst
backend (src/Tekst-API/tekst), shallowly embedded in Lean.

The embedding follows the Python sources:
  - routers/resources.py : resource lifecycle endpoints (create, version,
    update, propose, unpropose, publish, unpublish, transfer, delete) and
    the content import task;
  - routers/contents.py : content create/read/update/delete endpoints;
  - models/common.py : `DocumentBase.apply_updates` and
    `ModelFactoryMixin.update_model`;
  - resources/plain_text.py : the concrete content payload shape.

The storage collaborator (MongoDB via Beanie) is modelled as an explicit
in-memory state (`DB`); each endpoint becomes a pure function from the
state and request data to `Except ApiError` of the new state and response.
`ResourceBaseDocument` and `ContentBaseDocument` themselves are declared in
files not present here; their fields are reconstructed from every use in
the routers, and their class-level access-condition queries are modelled
from the spec (see `accessConditionsWrite` below).
-/

namespace Tekst

/-- A principal as supplied by the identity provider: `{id, isSuperuser}`. -/
structure User where
  id : Nat
  isSuperuser : Bool
deriving DecidableEq, Repr

/-- One localized title entry, as in the `title` translations list. -/
structure TranslationEntry where
  locale : String
  translation : String
deriving DecidableEq, Repr

/-- A text document; only the fields the resource routers use: the id and
the list of structure levels (`text.levels`). -/
structure Text where
  id : Nat
  levels : List String
deriving DecidableEq, Repr

/-- A location document; fields used by the routers: id, owning text,
structure level and ordinal position. -/
structure Location where
  id : Nat
  textId : Nat
  level : Nat
  position : Nat
deriving DecidableEq, Repr

/-- A resource document (`ResourceBaseDocument`), with the fields read and
written by routers/resources.py: identity, owning text, level, type key,
localized title, nullable owner, sharing lists, `proposed` and `public`
flags, and the nullable `original` reference marking a version. -/
structure Resource where
  id : Nat
  textId : Nat
  level : Nat
  resourceType : String
  title : List TranslationEntry
  ownerId : Option Nat
  sharedRead : List Nat
  sharedWrite : List Nat
  proposed : Bool
  public : Bool
  originalId : Option Nat
deriving DecidableEq, Repr

/-- A content document (`ContentBaseDocument` specialized to the plain
text type of resources/plain_text.py): identity, owning resource, bound
location, type discriminant and the `text` payload field. -/
structure Content where
  id : Nat
  resourceId : Nat
  locationId : Nat
  resourceType : String
  text : String
deriving DecidableEq, Repr

/-- The storage state: the logical collections the routers touch, plus a
counter for fresh document ids. -/
structure DB where
  users : List User
  texts : List Text
  locations : List Location
  resources : List Resource
  contents : List Content
  nextId : Nat
deriving DecidableEq, Repr

/-- The error taxonomy raised by the embedded endpoints, one constructor
per `errors.E_...` value the routers raise. -/
inductive ApiError where
  | resourceNotFound
  | forbidden
  | resourcesLimitReached
  | invalidText
  | resourceInvalidLevel
  | versionOfVersion
  | sharedWithUserNonExistent
  | publicDelete
  | proposedDelete
  | publicProposedTransfer
  | targetUserNonExistent
  | proposePublic
  | versionPropose
  | publishUnproposed
  | versionPublish
  | contentNotFound
  | contentConflict
  | contentIdMismatch
  | contentTypeMismatch
  | importIdMismatch
  | importInvalidContentData
deriving DecidableEq, Repr

/-- Classification of errors as `InvalidState` in the sense of the error
taxonomy of spec section 7: illegal lifecycle transitions. -/
def ApiError.isInvalidState : ApiError → Bool
  | .publicDelete => true
  | .proposedDelete => true
  | .publicProposedTransfer => true
  | .proposePublic => true
  | .versionPropose => true
  | .publishUnproposed => true
  | .versionPublish => true
  | .versionOfVersion => true
  | _ => false

/-- Lookup of a resource document by id, as `ResourceBaseDocument.get`. -/
def DB.getResource (db : DB) (rid : Nat) : Option Resource :=
  db.resources.find? (fun r => r.id == rid)

/-- Lookup of a content document by id, as `ContentBaseDocument.get`. -/
def DB.getContent (db : DB) (cid : Nat) : Option Content :=
  db.contents.find? (fun c => c.id == cid)

/-- Replace the resource document with the same id, as
`resource_doc.set({...})` persisted through the storage collaborator. -/
def DB.setResource (db : DB) (r : Resource) : DB :=
  { db with resources := db.resources.map (fun x => if x.id == r.id then r else x) }

/-- Replace the content document with the same id. -/
def DB.setContent (db : DB) (c : Content) : DB :=
  { db with contents := db.contents.map (fun x => if x.id == c.id then c else x) }

/-- Number of resources owned by a user. Modelled from the spec:
`ResourceBaseDocument.user_resource_count` is declared outside the files
present here; the spec describes it as the per-principal resource quota
count (section 4.3, create precondition). -/
def DB.userResourceCount (db : DB) (uid : Nat) : Nat :=
  (db.resources.filter (fun r => r.ownerId == some uid)).length

/-- The `writable` flag computed by `preprocess_resource_read` in
routers/resources.py lines 70 to 83: a superuser is always writable;
otherwise the requester must be the owner or in `shared_write`, and the
resource must be neither public nor proposed; anonymous requesters are
never writable. -/
def writableFlag (forUser : Option User) (r : Resource) : Bool :=
  match forUser with
  | none => false
  | some u =>
      u.isSuperuser
        || ((r.ownerId == some u.id || r.sharedWrite.contains u.id)
            && !r.public && !r.proposed)

/-- Modelled from the spec: `ResourceBaseDocument.access_conditions_write`
is declared outside the files present here (only its callers are). Spec
section 4.4 requires the query-filter predicate and the single-item flag to
produce identical results through both paths, so it is modelled as the
single-item `writableFlag` computed in routers/resources.py; the test
test_set_shares_for_public_resource confirms that a superuser passes this
filter on a public resource. -/
def accessConditionsWrite (user : Option User) (r : Resource) : Bool :=
  writableFlag user r

/-- Modelled from the spec: `ResourceBaseDocument.access_conditions_read`
is declared outside the files present here. Spec section 4.4: readable when
public, or the requester is owner, in either sharing list, or a
super-principal; anonymous principals read only public resources. -/
def accessConditionsRead (user : Option User) (r : Resource) : Bool :=
  match user with
  | none => r.public
  | some u =>
      r.public || u.isSuperuser || r.ownerId == some u.id
        || r.sharedRead.contains u.id || r.sharedWrite.contains u.id

/-- The resource creation request body (`AnyResourceCreateBody`): the
client-supplied fields; ownership, sharing and moderation fields carry
defaults and are overwritten by the endpoint before persisting. -/
structure ResourceCreate where
  textId : Nat
  level : Nat
  resourceType : String
  title : List TranslationEntry
  ownerId : Option Nat := none
  sharedRead : List Nat := []
  sharedWrite : List Nat := []
  proposed : Bool := false
  public : Bool := false
deriving DecidableEq, Repr

/-- POST /resources (`create_resource`, routers/resources.py lines 150 to
183): quota check for non-superusers, text existence and level validity
checks, then creation with forced ownership/lifecycle fields. The level
check compares against `len(text.levels) - 1` over the integers, exactly
as Python does. -/
def create_resource (user : User) (maxResourcesPerUser : Nat) (db : DB)
    (body : ResourceCreate) : Except ApiError (DB × Resource) :=
  if !user.isSuperuser && db.userResourceCount user.id ≥ maxResourcesPerUser then
    .error .resourcesLimitReached
  else
    match db.texts.find? (fun t => t.id == body.textId) with
    | none => .error .invalidText
    | some text =>
        if (body.level : Int) > (text.levels.length : Int) - 1 then
          .error .resourceInvalidLevel
        else
          let r : Resource :=
            { id := db.nextId
              textId := body.textId
              level := body.level
              resourceType := body.resourceType
              title := body.title
              ownerId := some user.id
              sharedRead := []
              sharedWrite := []
              proposed := false
              public := false
              originalId := none }
          .ok ({ db with resources := db.resources ++ [r], nextId := db.nextId + 1 }, r)

/-- The version title derivation of `create_resource_version`: every
translation is truncated to `64 - len(suffix)` characters and the suffix
appended. -/
def versionTitle (suffix : String) (title : List TranslationEntry) : List TranslationEntry :=
  title.map (fun tt =>
    { locale := tt.locale
      translation := (tt.translation.take (64 - suffix.length)) ++ suffix })

/-- POST /resources/{id}/version (`create_resource_version`,
routers/resources.py lines 198 to 262): quota check, lookup gated by the
read access conditions, rejection of versions of versions, then creation of
a copy with a fresh id, suffixed title, `original_id` pointing at the
source, the requester as owner, and cleared lifecycle/sharing fields. -/
def create_resource_version (user : User) (maxResourcesPerUser : Nat) (db : DB)
    (rid : Nat) : Except ApiError (DB × Resource) :=
  if !user.isSuperuser && db.userResourceCount user.id ≥ maxResourcesPerUser then
    .error .resourcesLimitReached
  else
    match db.resources.find?
        (fun r => r.id == rid && accessConditionsRead (some user) r) with
    | none => .error .resourceNotFound
    | some r =>
        if r.originalId.isSome then
          .error .versionOfVersion
        else
          let suffix := " v" ++
            toString ((db.resources.filter (fun x => x.originalId == some rid)).length + 2)
          let vr : Resource :=
            { r with
              id := db.nextId
              title := versionTitle suffix r.title
              originalId := some r.id
              ownerId := some user.id
              proposed := false
              public := false
              sharedRead := []
              sharedWrite := [] }
          .ok ({ db with resources := db.resources ++ [vr], nextId := db.nextId + 1 }, vr)

/-- The resource update request body (`AnyResourceUpdateBody`): the type
discriminant stays required, every other field is optional, where `none`
means the field was not set in the payload (it is then absent from
`model_fields_set` and not applied). -/
structure ResourceUpdate where
  resourceType : String
  title : Option (List TranslationEntry) := none
  ownerId : Option (Option Nat) := none
  textId : Option Nat := none
  level : Option Nat := none
  proposed : Option Bool := none
  public : Option Bool := none
  sharedRead : Option (List Nat) := none
  sharedWrite : Option (List Nat) := none
deriving DecidableEq, Repr

/-- `DocumentBase.apply_updates` (models/common.py lines 98 to 115)
specialized to resource documents: every field set in the update payload
and not named in `exclude` is written over the stored document. -/
def Resource.applyUpdates (r : Resource) (u : ResourceUpdate)
    (exclude : List String) : Resource :=
  { r with
    resourceType :=
      if exclude.contains "resource_type" then r.resourceType else u.resourceType
    title := if exclude.contains "title" then r.title else u.title.getD r.title
    ownerId := if exclude.contains "owner_id" then r.ownerId else u.ownerId.getD r.ownerId
    textId := if exclude.contains "text_id" then r.textId else u.textId.getD r.textId
    level := if exclude.contains "level" then r.level else u.level.getD r.level
    proposed := if exclude.contains "proposed" then r.proposed else u.proposed.getD r.proposed
    public := if exclude.contains "public" then r.public else u.public.getD r.public
    sharedRead :=
      if exclude.contains "shared_read" then r.sharedRead else u.sharedRead.getD r.sharedRead
    sharedWrite :=
      if exclude.contains "shared_write" then r.sharedWrite
      else u.sharedWrite.getD r.sharedWrite }

/-- Python truthiness of an optional list field of the update model: unset
and empty are both falsy. -/
def truthyList (l : Option (List Nat)) : Bool :=
  match l with
  | none => false
  | some xs => !xs.isEmpty

/-- PATCH /resources/{id} (`update_resource`, routers/resources.py lines
276 to 313): lookup gated by the write access conditions (a miss answers
not-found); share updates by a requester who is neither superuser nor owner
are silently replaced by the stored lists; on a public resource shares in
the update are forced empty; set shares must reference existing users; then
`apply_updates` with public, proposed, text, owner, level and type
excluded. -/
def update_resource (user : User) (db : DB) (rid : Nat)
    (updates : ResourceUpdate) : Except ApiError (DB × Resource) :=
  match db.resources.find?
      (fun r => r.id == rid && accessConditionsWrite (some user) r) with
  | none => .error .resourceNotFound
  | some r =>
      let u1 :=
        if !user.isSuperuser && r.ownerId != some user.id then
          { updates with
            sharedRead := some r.sharedRead, sharedWrite := some r.sharedWrite }
        else updates
      let u2 :=
        if r.public then { u1 with sharedRead := some [], sharedWrite := some [] }
        else u1
      if (truthyList u2.sharedRead || truthyList u2.sharedWrite)
          && !((u2.sharedRead.getD [] ++ u2.sharedWrite.getD []).all
                (fun uid => (db.users.find? (fun x => x.id == uid)).isSome)) then
        .error .sharedWithUserNonExistent
      else
        let r' := r.applyUpdates u2
          ["public", "proposed", "text_id", "owner_id", "level", "resource_type"]
        .ok (db.setResource r', r')

/-- POST /resources/{id}/propose (`propose_resource`, routers/resources.py
lines 531 to 559): owner or superuser only; a no-op on an already proposed
resource; public resources and versions are rejected; otherwise sets the
proposed flag and clears both sharing lists. -/
def propose_resource (user : User) (db : DB) (rid : Nat) :
    Except ApiError (DB × Resource) :=
  match db.getResource rid with
  | none => .error .resourceNotFound
  | some r =>
      if !user.isSuperuser && some user.id != r.ownerId then .error .forbidden
      else if r.proposed then .ok (db, r)
      else if r.public then .error .proposePublic
      else if r.originalId.isSome then .error .versionPropose
      else
        let r' := { r with proposed := true, sharedRead := [], sharedWrite := [] }
        .ok (db.setResource r', r')

/-- POST /resources/{id}/unpropose (`unpropose_resource`,
routers/resources.py lines 573 to 588): owner or superuser only; always
clears both the proposed and the public flag. -/
def unpropose_resource (user : User) (db : DB) (rid : Nat) :
    Except ApiError (DB × Resource) :=
  match db.getResource rid with
  | none => .error .resourceNotFound
  | some r =>
      if !user.isSuperuser && some user.id != r.ownerId then .error .forbidden
      else
        let r' := { r with proposed := false, public := false }
        .ok (db.setResource r', r')

/-- POST /resources/{id}/publish (`publish_resource`, routers/resources.py
lines 605 to 632): the route dependency admits superusers only; a no-op on
an already public resource; unproposed resources and versions are rejected;
otherwise sets public, clears proposed, clears the owner and both sharing
lists. -/
def publish_resource (user : User) (db : DB) (rid : Nat) :
    Except ApiError (DB × Resource) :=
  if !user.isSuperuser then .error .forbidden
  else
    match db.getResource rid with
    | none => .error .resourceNotFound
    | some r =>
        if r.public then .ok (db, r)
        else if !r.proposed then .error .publishUnproposed
        else if r.originalId.isSome then .error .versionPublish
        else
          let r' :=
            { r with
              public := true
              proposed := false
              ownerId := none
              sharedRead := []
              sharedWrite := [] }
          .ok (db.setResource r', r')

/-- POST /resources/{id}/unpublish (`unpublish_resource`,
routers/resources.py lines 647 to 660): superusers only; always clears the
public and proposed flags. -/
def unpublish_resource (user : User) (db : DB) (rid : Nat) :
    Except ApiError (DB × Resource) :=
  if !user.isSuperuser then .error .forbidden
  else
    match db.getResource rid with
    | none => .error .resourceNotFound
    | some r =>
        let r' := { r with public := false, proposed := false }
        .ok (db.setResource r', r')

/-- POST /resources/{id}/transfer (`transfer_resource`,
routers/resources.py lines 466 to 516): owner or superuser only; public or
proposed resources are rejected; the target user must exist; a transfer to
the current owner returns the resource untouched before any quota check;
otherwise the quota of a non-superuser target is checked and the owner is
replaced, the target being removed from both sharing lists. -/
def transfer_resource (user : User) (maxResourcesPerUser : Nat) (db : DB)
    (rid : Nat) (targetUserId : Nat) : Except ApiError (DB × Resource) :=
  match db.getResource rid with
  | none => .error .resourceNotFound
  | some r =>
      if !user.isSuperuser && some user.id != r.ownerId then .error .forbidden
      else if r.public || r.proposed then .error .publicProposedTransfer
      else
        match db.users.find? (fun x => x.id == targetUserId) with
        | none => .error .targetUserNonExistent
        | some target =>
            if some targetUserId == r.ownerId then .ok (db, r)
            else if !target.isSuperuser
                && db.userResourceCount targetUserId ≥ maxResourcesPerUser then
              .error .resourcesLimitReached
            else
              let r' :=
                { r with
                  ownerId := some targetUserId
                  sharedRead := r.sharedRead.filter (fun x => x != targetUserId)
                  sharedWrite := r.sharedWrite.filter (fun x => x != targetUserId) }
              .ok (db.setResource r', r')

/-- DELETE /resources/{id} (`delete_resource`, routers/resources.py lines
405 to 449): owner or superuser only; public or proposed resources are
rejected; on success every version of the resource has its `original_id`
cleared (the versions themselves survive), every content bound to the
resource is deleted, and the resource itself is deleted. -/
def delete_resource (user : User) (db : DB) (rid : Nat) : Except ApiError DB :=
  match db.getResource rid with
  | none => .error .resourceNotFound
  | some r =>
      if !user.isSuperuser && some user.id != r.ownerId then .error .forbidden
      else if r.public then .error .publicDelete
      else if r.proposed then .error .proposedDelete
      else
        let detached := db.resources.map
          (fun v => if v.originalId == some rid then { v with originalId := none } else v)
        .ok { db with
              resources := detached.filter (fun v => v.id != rid)
              contents := db.contents.filter (fun c => c.resourceId != rid) }

/-- The content creation request body (`AnyContentCreateBody` for the
plain text type): owning resource, bound location, type discriminant and
payload. -/
structure ContentCreate where
  resourceId : Nat
  locationId : Nat
  resourceType : String
  text : String
deriving DecidableEq, Repr

/-- POST /contents (`create_content`, routers/contents.py lines 40 to 74):
the owning resource must pass the write access conditions (else forbidden);
an existing content with the same (resource, location) pair answers a
conflict; otherwise the content document is created. The plain text payload
carries no html field, so the sanitizer leaves it unchanged. -/
def create_content (user : User) (db : DB) (c : ContentCreate) :
    Except ApiError (DB × Content) :=
  match db.resources.find?
      (fun r => r.id == c.resourceId && accessConditionsWrite (some user) r) with
  | none => .error .forbidden
  | some _ =>
      if (db.contents.find?
          (fun e => e.resourceId == c.resourceId && e.locationId == c.locationId)).isSome then
        .error .contentConflict
      else
        let doc : Content :=
          { id := db.nextId
            resourceId := c.resourceId
            locationId := c.locationId
            resourceType := c.resourceType
            text := c.text }
        .ok ({ db with contents := db.contents ++ [doc], nextId := db.nextId + 1 }, doc)

/-- The content update request body (`AnyContentUpdateBody` for the plain
text type): the type discriminant stays required, every other field is
optional; `none` means the field was not set in the payload. -/
structure ContentUpdate where
  resourceType : String
  resourceId : Option Nat := none
  locationId : Option Nat := none
  text : Option String := none
deriving DecidableEq, Repr

/-- `DocumentBase.apply_updates` (models/common.py lines 98 to 115)
specialized to content documents: every field set in the update payload and
not named in `exclude` is written over the stored document. -/
def Content.applyUpdates (c : Content) (u : ContentUpdate)
    (exclude : List String) : Content :=
  { c with
    resourceType :=
      if exclude.contains "resource_type" then c.resourceType else u.resourceType
    resourceId :=
      if exclude.contains "resource_id" then c.resourceId else u.resourceId.getD c.resourceId
    locationId :=
      if exclude.contains "location_id" then c.locationId else u.locationId.getD c.locationId
    text := if exclude.contains "text" then c.text else u.text.getD c.text }

/-- PATCH /contents/{id} (`update_content`, routers/contents.py lines 118
to 151): missing content answers not-found; an update carrying a resource
id different from the stored one answers an id mismatch; a type
discriminant different from the stored one answers a type mismatch; a
resource failing the write access conditions answers forbidden; otherwise
`apply_updates` runs with id, resource, location and type excluded. -/
def update_content (user : User) (db : DB) (cid : Nat) (u : ContentUpdate) :
    Except ApiError (DB × Content) :=
  match db.getContent cid with
  | none => .error .contentNotFound
  | some c =>
      if u.resourceId.isSome && c.resourceId != u.resourceId.getD 0 then
        .error .contentIdMismatch
      else if u.resourceType != c.resourceType then
        .error .contentTypeMismatch
      else
        match db.resources.find?
            (fun r => r.id == c.resourceId && accessConditionsWrite (some user) r) with
        | none => .error .forbidden
        | some _ =>
            let c' := c.applyUpdates u ["id", "resource_id", "location_id", "resource_type"]
            .ok (db.setContent c', c')

/-- One record of an import file: a location id and the optional payload
fields of the plain text content shape. -/
structure ImportRecord where
  locationId : Nat
  text : Option String
deriving DecidableEq, Repr

/-- The parsed import file (`ResourceImportData`): the target resource id
and the content records. -/
structure ImportData where
  resourceId : Nat
  contents : List ImportRecord
deriving DecidableEq, Repr

/-- The summary an import task returns: counts of created, updated and
discarded records. -/
structure ImportResult where
  created : Nat
  updated : Nat
  errors : Nat
deriving DecidableEq, Repr

/-- Whether a record of a batch is an update: some content of the resource
is already bound to its location (membership in the dictionary of existing
contents keyed by location). -/
def isUpdateRecord (db : DB) (rid : Nat) (rec : ImportRecord) : Bool :=
  (db.contents.find?
    (fun c => c.resourceId == rid && c.locationId == rec.locationId)).isSome

/-- Application of one validated update record to the storage state: the
content of the resource bound to the record location receives the set
payload fields; id, resource, location and type are excluded exactly as in
the individual update endpoint. -/
def applyImportUpdate (rid : Nat) (db : DB) (rec : ImportRecord) : DB :=
  { db with
    contents := db.contents.map (fun c =>
      if c.resourceId == rid && c.locationId == rec.locationId then
        match rec.text with
        | some t => { c with text := t }
        | none => c
      else c) }

/-- Insertion of the validated create records in one bulk operation,
assigning fresh ids in order. -/
def insertImportCreates (r : Resource) (db : DB) (creates : List ImportRecord) : DB :=
  match creates with
  | [] => db
  | rec :: rest =>
      insertImportCreates r
        { db with
          contents := db.contents ++
            [{ id := db.nextId
               resourceId := r.id
               locationId := rec.locationId
               resourceType := r.resourceType
               text := rec.text.getD "" }]
          nextId := db.nextId + 1 }
        rest

/-- The resource content import task (`_import_resource_contents_task`,
routers/resources.py lines 743 to 887): existence and write-permission
checks on the resource, resource id match against the file, partition of
the records into updates (location already bound) and creates (unbound),
validation of creates against the create view (the plain text payload is
required there), individual application of the updates, discarding of
creates whose location is not on the resource text and level (counted as
errors), bulk insertion of the remaining creates, and the count summary. -/
def import_resource_contents (user : User) (db : DB) (rid : Nat)
    (data : ImportData) : Except ApiError (DB × ImportResult) :=
  match db.getResource rid with
  | none => .error .resourceNotFound
  | some _ =>
      match db.resources.find?
          (fun r => r.id == rid && accessConditionsWrite (some user) r) with
      | none => .error .forbidden
      | some resource =>
          if rid != data.resourceId then .error .importIdMismatch
          else
            let updates := data.contents.filter (isUpdateRecord db rid)
            let creates := data.contents.filter (fun rec => !isUpdateRecord db rid rec)
            if !(creates.all (fun rec => rec.text.isSome)) then
              .error .importInvalidContentData
            else
              let dbAfterUpdates := updates.foldl (applyImportUpdate rid) db
              let levelLocationIds :=
                (db.locations.filter
                  (fun l => l.textId == resource.textId && l.level == resource.level)).map
                  (fun l => l.id)
              let validCreates :=
                creates.filter (fun rec => levelLocationIds.contains rec.locationId)
              let db2 := insertImportCreates resource dbAfterUpdates validCreates
              .ok (db2,
                { created := validCreates.length
                  updated := updates.length
                  errors := creates.length - validCreates.length })

/-- One lifecycle operation on the resource collection, with its request
data. -/
inductive LifecycleOp where
  | createOp (body : ResourceCreate)
  | createVersion (rid : Nat)
  | updateOp (rid : Nat) (updates : ResourceUpdate)
  | propose (rid : Nat)
  | unpropose (rid : Nat)
  | publish (rid : Nat)
  | unpublish (rid : Nat)
  | transfer (rid : Nat) (targetUserId : Nat)
  | deleteOp (rid : Nat)
deriving DecidableEq, Repr

/-- The storage state reached by one lifecycle endpoint. -/
def runLifecycleOp (op : LifecycleOp) (user : User) (maxResourcesPerUser : Nat)
    (db : DB) : Except ApiError DB :=
  match op with
  | .createOp body => (create_resource user maxResourcesPerUser db body).map (fun p => p.1)
  | .createVersion rid =>
      (create_resource_version user maxResourcesPerUser db rid).map (fun p => p.1)
  | .updateOp rid updates => (update_resource user db rid updates).map (fun p => p.1)
  | .propose rid => (propose_resource user db rid).map (fun p => p.1)
  | .unpropose rid => (unpropose_resource user db rid).map (fun p => p.1)
  | .publish rid => (publish_resource user db rid).map (fun p => p.1)
  | .unpublish rid => (unpublish_resource user db rid).map (fun p => p.1)
  | .transfer rid target =>
      (transfer_resource user maxResourcesPerUser db rid target).map (fun p => p.1)
  | .deleteOp rid => delete_resource user db rid

/-- The publication invariant of spec section 3: a public resource has no
owner and empty sharing lists. -/
def publicInvariant (r : Resource) : Bool :=
  !r.public || (r.ownerId == none && r.sharedRead.isEmpty && r.sharedWrite.isEmpty)

/-- One field descriptor of a canonical pydantic model: its name and
whether it is required. -/
structure FieldSpec where
  name : String
  required : Bool
deriving DecidableEq, Repr

/-- The field transformation of `ModelFactoryMixin.update_model`
(models/common.py lines 172 to 189): every required field whose name does
not end in `_type` is overridden with an optional, None-defaulted variant;
all other fields are inherited unchanged. -/
def updateModelFields (fields : List FieldSpec) : List FieldSpec :=
  fields.map (fun f =>
    if !f.name.endsWith "_type" && f.required then { f with required := false } else f)

/-- The write-eligibility predicate exactly as the spec words it (section
4.4): requester is owner, or in `shared_write`, or a super-principal, and
the resource is not public. Stated separately from the code predicate
`writableFlag` so the two can be compared. -/
def specWriteEligible (user : Option User) (r : Resource) : Bool :=
  match user with
  | none => false
  | some u =>
      (r.ownerId == some u.id || r.sharedWrite.contains u.id || u.isSuperuser)
        && !r.public

/-! Concrete sample data used to instantiate the theorems below on closed
inputs. -/

/-- A regular user who owns the sample resource. -/
def uOwner : User := { id := 1, isSuperuser := false }

/-- A superuser. -/
def uSuper : User := { id := 2, isSuperuser := true }

/-- A private, unproposed sample resource owned by `uOwner`. -/
def rPriv : Resource :=
  { id := 5
    textId := 1
    level := 0
    resourceType := "plainText"
    title := [{ locale := "*", translation := "T" }]
    ownerId := some 1
    sharedRead := []
    sharedWrite := []
    proposed := false
    public := false
    originalId := none }

/-- A public sample resource satisfying the publication invariant. -/
def rPub : Resource :=
  { rPriv with id := 7, ownerId := none, public := true }

/-- A sample storage state: three users, one text with one level, two
locations on that level, the private resource of `uOwner` with contents
bound to both locations, and the public resource. -/
def dbW : DB :=
  { users := [uOwner, uSuper, { id := 3, isSuperuser := false }]
    texts := [{ id := 1, levels := ["lvl"] }]
    locations := [{ id := 11, textId := 1, level := 0, position := 0 },
                  { id := 12, textId := 1, level := 0, position := 1 }]
    resources := [rPriv, rPub]
    contents := [{ id := 21, resourceId := 5, locationId := 11,
                   resourceType := "plainText", text := "one" },
                 { id := 22, resourceId := 5, locationId := 12,
                   resourceType := "plainText", text := "two" }]
    nextId := 100 }

/-- The sample import batch of claim C7: two records on locations that
already carry content of the resource, one record on a location id that
does not exist on the text. -/
def importBatchW : ImportData :=
  { resourceId := 5
    contents := [{ locationId := 11, text := some "a" },
                 { locationId := 12, text := some "b" },
                 { locationId := 99, text := some "c" }] }

/-!
Theorems. Each claim of the specification is settled by one theorem; the
concrete sample data above feeds the closed witness instances.
-/

/-- C2, counterexample: the spec predicate (owner, shared or superuser, and
not public) disagrees with the flag the code computes. A superuser is
writable on a public resource according to the code, while the claim makes
every principal ineligible on public resources; so the claim as stated is
false of the code. -/
theorem claim_c2_counterexample :
    writableFlag (some uSuper) rPub = true
      ∧ specWriteEligible (some uSuper) rPub = false := by
  decide

/-- C2, amended: the write-eligibility flag computed by
`preprocess_resource_read` is true exactly when the principal is a
super-principal, or is the owner or in `shared_write` while the resource is
neither public nor proposed. In particular a super-principal stays
write-eligible on a public resource, and a non-super owner loses
eligibility already when the resource is proposed. -/
theorem claim_c2_amended (u : User) (r : Resource) :
    writableFlag (some u) r = true ↔
      (u.isSuperuser = true ∨
        ((r.ownerId = some u.id ∨ u.id ∈ r.sharedWrite)
          ∧ r.public = false ∧ r.proposed = false)) := by
  simp [writableFlag, List.elem_eq_mem, Bool.or_eq_true, Bool.and_eq_true,
    Bool.not_eq_true', beq_iff_eq]
  tauto

/-- C8: in the Update view synthesized by `ModelFactoryMixin.update_model`,
a field is required exactly when it was required on the canonical model and
its name carries the `_type` discriminant suffix; every other field becomes
optional, so a partial payload may omit any subset of non-discriminant
fields but never the discriminant. -/
theorem claim_c8_update_model (fields : List FieldSpec) :
    updateModelFields fields =
      fields.map (fun f =>
        { name := f.name, required := f.required && f.name.endsWith "_type" }) := by
  unfold updateModelFields
  apply List.map_congr_left
  intro f _
  cases f with
  | mk n req =>
      by_cases h1 : n.endsWith "_type" <;> cases req <;> simp [h1]

/-- C3: publish by a super-principal is a no-op returning the current
state on an already public resource; otherwise it rejects unproposed
resources and versions with InvalidState errors; otherwise it sets public,
clears proposed, clears the owner and both sharing lists. -/
theorem claim_c3_publish (u : User) (db : DB) (rid : Nat) (r : Resource)
    (hsu : u.isSuperuser = true) (hr : db.getResource rid = some r) :
    (r.public = true → publish_resource u db rid = .ok (db, r)) ∧
    (r.public = false → r.proposed = false →
        publish_resource u db rid = .error .publishUnproposed ∧
        ApiError.publishUnproposed.isInvalidState = true) ∧
    (r.public = false → r.proposed = true → r.originalId ≠ none →
        publish_resource u db rid = .error .versionPublish ∧
        ApiError.versionPublish.isInvalidState = true) ∧
    (r.public = false → r.proposed = true → r.originalId = none →
        publish_resource u db rid =
          .ok (db.setResource
                { r with public := true, proposed := false, ownerId := none,
                         sharedRead := [], sharedWrite := [] },
               { r with public := true, proposed := false, ownerId := none,
                        sharedRead := [], sharedWrite := [] })) := by
  refine ⟨?_, ?_, ?_, ?_⟩
  · intro hp
    simp [publish_resource, hsu, hr, hp]
  · intro hp hpr
    exact ⟨by simp [publish_resource, hsu, hr, hp, hpr], by decide⟩
  · intro hp hpr hor
    exact ⟨by simp [publish_resource, hsu, hr, hp, hpr,
      Option.isSome_iff_ne_none, hor], by decide⟩
  · intro hp hpr hor
    simp [publish_resource, hsu, hr, hp, hpr, hor]

/-- C3 witness: the successful publication branch on the sample data,
after proposing the private sample resource. -/
theorem claim_c3_publish_witness :
    publish_resource uSuper (dbW.setResource { rPriv with proposed := true }) 5 =
      .ok ((dbW.setResource { rPriv with proposed := true }).setResource
            { rPriv with public := true, proposed := false, ownerId := none,
                         sharedRead := [], sharedWrite := [] },
           { rPriv with public := true, proposed := false, ownerId := none,
                        sharedRead := [], sharedWrite := [] }) := by
  have h := claim_c3_publish uSuper
    (dbW.setResource { rPriv with proposed := true }) 5
    { rPriv with proposed := true } (by decide) (by decide)
  exact h.2.2.2 (by decide) (by decide) (by decide)

/-- C10: a transfer whose target is already the owner returns the stored
resource untouched, for every quota limit (in particular an exhausted
one); the quota of the target is never consulted on this path. -/
theorem claim_c10_transfer_self (u target : User) (maxResourcesPerUser : Nat)
    (db : DB) (rid : Nat) (r : Resource)
    (hr : db.getResource rid = some r)
    (hperm : u.isSuperuser = true ∨ r.ownerId = some u.id)
    (hpub : r.public = false) (hprop : r.proposed = false)
    (htarget : db.users.find? (fun x => x.id == target.id) = some target)
    (hown : r.ownerId = some target.id) :
    transfer_resource u maxResourcesPerUser db rid target.id = .ok (db, r) := by
  simp [transfer_resource, hr, hpub, hprop, htarget, hown]
  intro hsup
  rcases hperm with h | h
  · rw [h] at hsup
    exact Bool.noConfusion hsup
  · rw [h] at hown
    exact Option.some.inj hown

/-- C10 witness: self-transfer of the sample resource with a quota limit
of zero. -/
theorem claim_c10_transfer_self_witness :
    transfer_resource uOwner 0 dbW 5 1 = .ok (dbW, rPriv) := by
  exact claim_c10_transfer_self uOwner uOwner 0 dbW 5 rPriv (by decide)
    (Or.inr (by decide)) (by decide) (by decide) (by decide) (by decide)

/-- C5: for a write-eligible principal (the owning resource passes the
write access conditions), creating a content on a (resource, location)
pair already bound answers a conflict — by the `Except` shape, nothing is
stored then — while a pair not yet bound answers the freshly created
document appended to the store. -/
theorem claim_c5_create_content (u : User) (db : DB) (c : ContentCreate) (r : Resource)
    (hfind : db.resources.find?
        (fun x => x.id == c.resourceId && accessConditionsWrite (some u) x) = some r) :
    ((∃ e ∈ db.contents, e.resourceId = c.resourceId ∧ e.locationId = c.locationId) →
        create_content u db c = .error .contentConflict) ∧
    ((∀ e ∈ db.contents, ¬(e.resourceId = c.resourceId ∧ e.locationId = c.locationId)) →
        create_content u db c =
          .ok ({ db with contents := db.contents ++
                           [{ id := db.nextId, resourceId := c.resourceId,
                              locationId := c.locationId, resourceType := c.resourceType,
                              text := c.text }],
                         nextId := db.nextId + 1 },
               { id := db.nextId, resourceId := c.resourceId,
                 locationId := c.locationId, resourceType := c.resourceType,
                 text := c.text })) := by
  constructor
  · rintro ⟨e, he, h1, h2⟩
    have hdup : (db.contents.find?
        (fun x => x.resourceId == c.resourceId && x.locationId == c.locationId)).isSome := by
      rw [List.find?_isSome]
      exact ⟨e, he, by simp [h1, h2]⟩
    simp [create_content, hfind, hdup]
  · intro hno
    have hdup : db.contents.find?
        (fun x => x.resourceId == c.resourceId && x.locationId == c.locationId) = none := by
      rw [List.find?_eq_none]
      intro x hx
      simp only [Bool.and_eq_true, beq_iff_eq, not_and]
      intro h1 h2
      exact hno x hx ⟨h1, h2⟩
    simp [create_content, hfind, hdup]

/-- C5 witness: on the sample data, creating on the already bound location
11 conflicts, and the second conjunct applies to an unbound location. -/
theorem claim_c5_create_content_witness :
    create_content uOwner dbW
      { resourceId := 5, locationId := 11, resourceType := "plainText",
        text := "dup" } = .error .contentConflict := by
  exact (claim_c5_create_content uOwner dbW
      { resourceId := 5, locationId := 11, resourceType := "plainText", text := "dup" }
      rPriv (by decide)).1
    ⟨{ id := 21, resourceId := 5, locationId := 11,
       resourceType := "plainText", text := "one" },
     by decide, rfl, rfl⟩

/-- C6: an update carrying a resource reference different from the stored
one answers an id mismatch; an update whose type discriminant differs from
the stored one answers a type mismatch; in both cases the `Except` shape
produces no updated state, so the stored content is untouched. -/
theorem claim_c6_update_mismatch (u : User) (db : DB) (cid : Nat)
    (upd : ContentUpdate) (c : Content)
    (hc : db.getContent cid = some c) :
    (∀ rid, upd.resourceId = some rid → rid ≠ c.resourceId →
        update_content u db cid upd = .error .contentIdMismatch) ∧
    ((upd.resourceId = none ∨ upd.resourceId = some c.resourceId) →
      upd.resourceType ≠ c.resourceType →
        update_content u db cid upd = .error .contentTypeMismatch) := by
  constructor
  · intro rid hset hne
    have h2 : c.resourceId ≠ rid := fun h => hne h.symm
    simp [update_content, hc, hset, h2]
  · intro hopt hty
    rcases hopt with h | h
    · simp [update_content, hc, h, hty]
    · simp [update_content, hc, h, hty]

/-- C6 witness: on the sample data, an update naming resource 6 on a
content stored under resource 5 answers the id mismatch, discharged
through the first conjunct. -/
theorem claim_c6_update_mismatch_witness :
    update_content uOwner dbW 21
      { resourceType := "plainText", resourceId := some 6 } =
      .error .contentIdMismatch := by
  exact (claim_c6_update_mismatch uOwner dbW 21
      { resourceType := "plainText", resourceId := some 6 }
      { id := 21, resourceId := 5, locationId := 11,
        resourceType := "plainText", text := "one" }
      (by decide)).1 6 rfl (by decide)

/-- C9: a successful content update never changes the stored identity,
resource reference, location reference or type discriminant — even when the
payload sets those fields — and applies exactly the set payload fields (an
unset `text` keeps the stored text). -/
theorem claim_c9_update_frame (u : User) (db db' : DB) (cid : Nat)
    (upd : ContentUpdate) (c c' : Content)
    (hc : db.getContent cid = some c)
    (hok : update_content u db cid upd = .ok (db', c')) :
    c'.id = c.id ∧ c'.resourceId = c.resourceId ∧ c'.locationId = c.locationId ∧
      c'.resourceType = c.resourceType ∧ c'.text = upd.text.getD c.text ∧
      db' = db.setContent c' := by
  simp only [update_content, hc] at hok
  split at hok
  · exact absurd hok (by simp)
  · split at hok
    · exact absurd hok (by simp)
    · cases hf : db.resources.find?
          (fun r => r.id == c.resourceId && accessConditionsWrite (some u) r) with
      | none =>
          rw [hf] at hok
          exact absurd hok (by simp)
      | some x =>
          rw [hf] at hok
          simp only [Except.ok.injEq, Prod.mk.injEq] at hok
          obtain ⟨hdb, hcc⟩ := hok
          subst hdb
          subst hcc
          exact ⟨rfl, rfl, rfl, rfl, rfl, rfl⟩

/-- C9 witness: updating the sample content 21 with a payload that sets
the text and names the matching resource and a location keeps all
references and applies the text. -/
theorem claim_c9_update_frame_witness :
    ∃ db' c', update_content uOwner dbW 21
        { resourceType := "plainText", resourceId := some 5,
          locationId := some 99, text := some "changed" } = .ok (db', c') ∧
      c'.id = 21 ∧ c'.resourceId = 5 ∧ c'.locationId = 11 ∧
      c'.resourceType = "plainText" ∧ c'.text = "changed" := by
  have h := claim_c9_update_frame uOwner dbW
    (dbW.setContent { id := 21, resourceId := 5, locationId := 11,
                      resourceType := "plainText", text := "changed" })
    21
    { resourceType := "plainText", resourceId := some 5,
      locationId := some 99, text := some "changed" }
    { id := 21, resourceId := 5, locationId := 11,
      resourceType := "plainText", text := "one" }
    { id := 21, resourceId := 5, locationId := 11,
      resourceType := "plainText", text := "changed" }
    (by decide) rfl
  exact ⟨dbW.setContent { id := 21, resourceId := 5, locationId := 11,
                          resourceType := "plainText", text := "changed" },
         { id := 21, resourceId := 5, locationId := 11,
           resourceType := "plainText", text := "changed" },
         rfl, h.1, h.2.1, h.2.2.1, h.2.2.2.1, h.2.2.2.2.1⟩

/-- C4: deletion is refused for a requester who is neither owner nor
super-principal, and for public or proposed resources (InvalidState); on
success every version of the resource survives with its `original`
reference cleared, every content bound to the resource is gone, and the
resource itself is gone. -/
theorem claim_c4_delete (u : User) (db : DB) (rid : Nat) (r : Resource)
    (hr : db.getResource rid = some r) :
    (¬(u.isSuperuser = true ∨ r.ownerId = some u.id) →
        delete_resource u db rid = .error .forbidden) ∧
    ((u.isSuperuser = true ∨ r.ownerId = some u.id) → r.public = true →
        delete_resource u db rid = .error .publicDelete ∧
        ApiError.publicDelete.isInvalidState = true) ∧
    ((u.isSuperuser = true ∨ r.ownerId = some u.id) → r.public = false →
      r.proposed = true →
        delete_resource u db rid = .error .proposedDelete ∧
        ApiError.proposedDelete.isInvalidState = true) ∧
    ((u.isSuperuser = true ∨ r.ownerId = some u.id) → r.public = false →
      r.proposed = false →
      ∃ db', delete_resource u db rid = .ok db' ∧
        (∀ v ∈ db.resources, v.originalId = some rid → v.id ≠ rid →
            { v with originalId := none } ∈ db'.resources) ∧
        (∀ c : Content, c ∈ db'.contents ↔ c ∈ db.contents ∧ c.resourceId ≠ rid) ∧
        (∀ v ∈ db'.resources, v.id ≠ rid)) := by
  have hgate : (u.isSuperuser = true ∨ r.ownerId = some u.id) →
      (!u.isSuperuser && some u.id != r.ownerId) = false := by
    rintro (h | h)
    · simp [h]
    · simp [h]
  refine ⟨?_, ?_, ?_, ?_⟩
  · intro hperm
    push_neg at hperm
    obtain ⟨h1, h2⟩ := hperm
    have h1f : u.isSuperuser = false := by
      cases hs : u.isSuperuser
      · rfl
      · exact absurd hs h1
    have h2f : some u.id ≠ r.ownerId := fun h => h2 h.symm
    simp [delete_resource, hr, h1f, h2f]
  · intro hperm hp
    exact ⟨by simp [delete_resource, hr, hgate hperm, hp], by decide⟩
  · intro hperm hp hpr
    exact ⟨by simp [delete_resource, hr, hgate hperm, hp, hpr], by decide⟩
  · intro hperm hp hpr
    refine ⟨{ db with
              resources := (db.resources.map (fun v =>
                  if v.originalId == some rid then { v with originalId := none }
                  else v)).filter (fun v => v.id != rid)
              contents := db.contents.filter (fun c => c.resourceId != rid) },
            by simp [delete_resource, hr, hgate hperm, hp, hpr], ?_, ?_, ?_⟩
    · intro v hv hvo hvid
      rw [List.mem_filter]
      constructor
      · rw [List.mem_map]
        exact ⟨v, hv, by simp [hvo]⟩
      · simpa using hvid
    · intro cc
      rw [List.mem_filter]
      simp [bne_iff_ne]
    · intro v hv
      rw [List.mem_filter] at hv
      simpa using hv.2

/-- C4 witness: deleting the private sample resource, in a state extended
by a version of it and a content bound to it, detaches the version, removes
the content and removes the resource. -/
theorem claim_c4_delete_witness :
    ∃ db', delete_resource uOwner
        { dbW with resources := dbW.resources ++ [{ rPriv with id := 6, originalId := some 5 }] }
        5 = .ok db' ∧
      { rPriv with id := 6, originalId := none } ∈ db'.resources ∧
      (∀ c ∈ db'.contents, c.resourceId ≠ 5) ∧
      (∀ v ∈ db'.resources, v.id ≠ 5) := by
  have h := claim_c4_delete uOwner
    { dbW with resources := dbW.resources ++ [{ rPriv with id := 6, originalId := some 5 }] }
    5 rPriv (by decide)
  obtain ⟨db', hok, hvers, hcont, hres⟩ :=
    h.2.2.2 (Or.inr (by decide)) (by decide) (by decide)
  refine ⟨db', hok, ?_, ?_, hres⟩
  · exact hvers { rPriv with id := 6, originalId := some 5 } (by decide) rfl (by decide)
  · intro cc hcc
    exact ((hcont cc).mp hcc).2

/-- C7: an import batch against a writable resource whose unbound records
all validate against the create view succeeds without aborting, applying
bound records as updates and unbound ones as creates, discarding creates
whose location is not on the resource text and level, and reports exactly
the counts: updated is the number of records whose location is already
bound, created the number of unbound records on a valid location, and
errors the number of unbound records on an invalid location. -/
theorem claim_c7_import (u : User) (db : DB) (rid : Nat) (data : ImportData)
    (r : Resource)
    (hget : db.getResource rid = some r)
    (hfind : db.resources.find?
        (fun x => x.id == rid && accessConditionsWrite (some u) x) = some r)
    (hid : rid = data.resourceId)
    (hval : ∀ rec ∈ data.contents,
        isUpdateRecord db rid rec = false → rec.text.isSome = true) :
    ∃ db2 res, import_resource_contents u db rid data = .ok (db2, res) ∧
      res.updated = (data.contents.filter (fun rec => isUpdateRecord db rid rec)).length ∧
      res.created = (data.contents.filter (fun rec =>
          !isUpdateRecord db rid rec &&
          ((db.locations.filter (fun l => l.textId == r.textId && l.level == r.level)).map
            (fun l => l.id)).contains rec.locationId)).length ∧
      res.errors = (data.contents.filter (fun rec =>
          !isUpdateRecord db rid rec &&
          !((db.locations.filter (fun l => l.textId == r.textId && l.level == r.level)).map
            (fun l => l.id)).contains rec.locationId)).length := by
  subst hid
  have hall : (data.contents.filter
      (fun rec => !isUpdateRecord db data.resourceId rec)).all
      (fun rec => rec.text.isSome) = true := by
    rw [List.all_eq_true]
    intro rec hrec
    rw [List.mem_filter] at hrec
    exact hval rec hrec.1 (by simpa using hrec.2)
  refine ⟨insertImportCreates r
      ((data.contents.filter (isUpdateRecord db data.resourceId)).foldl
        (applyImportUpdate data.resourceId) db)
      ((data.contents.filter (fun rec => !isUpdateRecord db data.resourceId rec)).filter
        (fun rec =>
          ((db.locations.filter (fun l => l.textId == r.textId && l.level == r.level)).map
            (fun l => l.id)).contains rec.locationId)),
    { created := ((data.contents.filter
          (fun rec => !isUpdateRecord db data.resourceId rec)).filter
          (fun rec =>
            ((db.locations.filter (fun l => l.textId == r.textId && l.level == r.level)).map
              (fun l => l.id)).contains rec.locationId)).length
      updated := (data.contents.filter (isUpdateRecord db data.resourceId)).length
      errors :=
        (data.contents.filter (fun rec => !isUpdateRecord db data.resourceId rec)).length -
          ((data.contents.filter
            (fun rec => !isUpdateRecord db data.resourceId rec)).filter
            (fun rec =>
              ((db.locations.filter
                (fun l => l.textId == r.textId && l.level == r.level)).map
                (fun l => l.id)).contains rec.locationId)).length },
    ?_, ?_, ?_, ?_⟩
  · rw [import_resource_contents, hget, hfind]
    simp only [bne_self_eq_false, Bool.false_eq_true, if_false, hall, Bool.not_true,
      if_true]
  · rfl
  · show (((data.contents.filter (fun rec => !isUpdateRecord db data.resourceId rec)).filter
        (fun rec =>
          ((db.locations.filter (fun l => l.textId == r.textId && l.level == r.level)).map
            (fun l => l.id)).contains rec.locationId)).length) = _
    rw [List.filter_filter]
    apply congrArg
    apply List.filter_congr
    intro a _
    rw [Bool.and_comm]
  · show ((data.contents.filter (fun rec => !isUpdateRecord db data.resourceId rec)).length -
        ((data.contents.filter (fun rec => !isUpdateRecord db data.resourceId rec)).filter
          (fun rec =>
            ((db.locations.filter (fun l => l.textId == r.textId && l.level == r.level)).map
              (fun l => l.id)).contains rec.locationId)).length) = _
    rw [List.length_eq_length_filter_add
      (fun rec : ImportRecord =>
        ((db.locations.filter (fun l => l.textId == r.textId && l.level == r.level)).map
          (fun l => l.id)).contains rec.locationId)
      (l := data.contents.filter (fun rec => !isUpdateRecord db data.resourceId rec))]
    rw [Nat.add_sub_cancel_left, List.filter_filter]
    apply congrArg
    apply List.filter_congr
    intro a _
    rw [Bool.and_comm]

/-- C7 witness: the batch of three records against the sample resource,
two on bound locations 11 and 12 and one on the nonexistent location 99,
reports created 0, updated 2, errors 1. -/
theorem claim_c7_import_witness :
    ∃ db2 res, import_resource_contents uOwner dbW 5 importBatchW = .ok (db2, res) ∧
      res.created = 0 ∧ res.updated = 2 ∧ res.errors = 1 := by
  obtain ⟨db2, res, hok, hup, hcr, herr⟩ :=
    claim_c7_import uOwner dbW 5 importBatchW rPriv (by decide) (by decide) rfl
      (by decide)
  refine ⟨db2, res, hok, ?_, ?_, ?_⟩
  · rw [hcr]; decide
  · rw [hup]; decide
  · rw [herr]; decide

/-- Replacing one document preserves a resource-collection invariant when
the replacement itself satisfies it. -/
theorem inv_setResource (db : DB) (r' : Resource)
    (hinv : ∀ r ∈ db.resources, publicInvariant r = true)
    (h : publicInvariant r' = true) :
    ∀ r ∈ (db.setResource r').resources, publicInvariant r = true := by
  intro r hm
  simp only [DB.setResource, List.mem_map] at hm
  obtain ⟨x, hx, heq⟩ := hm
  split at heq
  · subst heq; exact h
  · subst heq; exact hinv x hx

/-- The fields of `apply_updates` on a resource with the exclusion set of
the update endpoint: only title and the sharing lists can change. -/
theorem applyUpdates_resource_excluded (rr : Resource) (uu : ResourceUpdate) :
    rr.applyUpdates uu
        ["public", "proposed", "text_id", "owner_id", "level", "resource_type"] =
      { rr with title := uu.title.getD rr.title
                sharedRead := uu.sharedRead.getD rr.sharedRead
                sharedWrite := uu.sharedWrite.getD rr.sharedWrite } := rfl

/-- Creation preserves the publication invariant: the new resource starts
private. -/
theorem inv_create_resource (u : User) (m : Nat) (db db2 : DB)
    (body : ResourceCreate) (r2 : Resource)
    (hinv : ∀ r ∈ db.resources, publicInvariant r = true)
    (hok : create_resource u m db body = .ok (db2, r2)) :
    ∀ r ∈ db2.resources, publicInvariant r = true := by
  cases ht : db.texts.find? (fun t => t.id == body.textId) with
  | none =>
      simp only [create_resource, ht] at hok
      split at hok
      · exact absurd hok (by simp)
      · exact absurd hok (by simp)
  | some text =>
      simp only [create_resource, ht] at hok
      split at hok
      · exact absurd hok (by simp)
      · split at hok
        · exact absurd hok (by simp)
        · simp only [Except.ok.injEq, Prod.mk.injEq] at hok
          obtain ⟨hdb, _⟩ := hok
          subst hdb
          intro r hm
          rw [List.mem_append] at hm
          rcases hm with hm | hm
          · exact hinv r hm
          · rw [List.mem_singleton] at hm
            subst hm
            rfl

/-- Version creation preserves the publication invariant: the version
starts private. -/
theorem inv_create_resource_version (u : User) (m : Nat) (db db2 : DB)
    (rid : Nat) (r2 : Resource)
    (hinv : ∀ r ∈ db.resources, publicInvariant r = true)
    (hok : create_resource_version u m db rid = .ok (db2, r2)) :
    ∀ r ∈ db2.resources, publicInvariant r = true := by
  cases hf : db.resources.find?
      (fun r => r.id == rid && accessConditionsRead (some u) r) with
  | none =>
      simp only [create_resource_version, hf] at hok
      split at hok
      · exact absurd hok (by simp)
      · exact absurd hok (by simp)
  | some r =>
      simp only [create_resource_version, hf] at hok
      split at hok
      · exact absurd hok (by simp)
      · split at hok
        · exact absurd hok (by simp)
        · simp only [Except.ok.injEq, Prod.mk.injEq] at hok
          obtain ⟨hdb, _⟩ := hok
          subst hdb
          intro x hm
          rw [List.mem_append] at hm
          rcases hm with hm | hm
          · exact hinv x hm
          · rw [List.mem_singleton] at hm
            subst hm
            rfl

/-- The update endpoint preserves the publication invariant: the public
and owner fields are excluded from application, and on a public resource
the endpoint forces both share lists in the update to be empty. -/
theorem inv_update_resource (u : User) (db db2 : DB) (rid : Nat)
    (upd : ResourceUpdate) (r2 : Resource)
    (hinv : ∀ r ∈ db.resources, publicInvariant r = true)
    (hok : update_resource u db rid upd = .ok (db2, r2)) :
    ∀ r ∈ db2.resources, publicInvariant r = true := by
  cases hf : db.resources.find?
      (fun r => r.id == rid && accessConditionsWrite (some u) r) with
  | none =>
      simp only [update_resource, hf] at hok
      exact absurd hok (by simp)
  | some r =>
      have hrmem : r ∈ db.resources := List.mem_of_find?_eq_some hf
      cases hg : (!u.isSuperuser && r.ownerId != some u.id) with
      | false =>
          cases hp : r.public with
          | false =>
              simp only [update_resource, hf, hg, hp, Bool.false_eq_true,
                if_false] at hok
              split at hok
              · exact absurd hok (by simp)
              · simp only [Except.ok.injEq, Prod.mk.injEq] at hok
                obtain ⟨hdb, _⟩ := hok
                subst hdb
                apply inv_setResource _ _ hinv
                rw [applyUpdates_resource_excluded]
                simp [publicInvariant, hp]
          | true =>
              simp only [update_resource, hf, hg, hp, Bool.false_eq_true,
                if_false, if_true] at hok
              split at hok
              · exact absurd hok (by simp)
              · simp only [Except.ok.injEq, Prod.mk.injEq] at hok
                obtain ⟨hdb, _⟩ := hok
                subst hdb
                apply inv_setResource _ _ hinv
                rw [applyUpdates_resource_excluded]
                have hr := hinv r hrmem
                simp only [publicInvariant, hp, Bool.not_true, Bool.false_or,
                  Bool.and_eq_true] at hr ⊢
                simp [hr.1]
      | true =>
          cases hp : r.public with
          | false =>
              simp only [update_resource, hf, hg, hp, Bool.false_eq_true,
                if_false, if_true] at hok
              split at hok
              · exact absurd hok (by simp)
              · simp only [Except.ok.injEq, Prod.mk.injEq] at hok
                obtain ⟨hdb, _⟩ := hok
                subst hdb
                apply inv_setResource _ _ hinv
                rw [applyUpdates_resource_excluded]
                simp [publicInvariant, hp]
          | true =>
              simp only [update_resource, hf, hg, hp, if_true] at hok
              split at hok
              · exact absurd hok (by simp)
              · simp only [Except.ok.injEq, Prod.mk.injEq] at hok
                obtain ⟨hdb, _⟩ := hok
                subst hdb
                apply inv_setResource _ _ hinv
                rw [applyUpdates_resource_excluded]
                have hr := hinv r hrmem
                simp only [publicInvariant, hp, Bool.not_true, Bool.false_or,
                  Bool.and_eq_true] at hr ⊢
                simp [hr.1]

/-- Proposing preserves the publication invariant: the no-op path returns
the state untouched, and the success path keeps the public and owner
fields while emptying the share lists. -/
theorem inv_propose_resource (u : User) (db db2 : DB) (rid : Nat) (r2 : Resource)
    (hinv : ∀ r ∈ db.resources, publicInvariant r = true)
    (hok : propose_resource u db rid = .ok (db2, r2)) :
    ∀ r ∈ db2.resources, publicInvariant r = true := by
  cases hf : db.getResource rid with
  | none =>
      simp only [propose_resource, hf] at hok
      exact absurd hok (by simp)
  | some r =>
      have hrmem : r ∈ db.resources := List.mem_of_find?_eq_some hf
      simp only [propose_resource, hf] at hok
      split at hok
      · exact absurd hok (by simp)
      · split at hok
        · simp only [Except.ok.injEq, Prod.mk.injEq] at hok
          obtain ⟨hdb, _⟩ := hok
          subst hdb
          exact hinv
        · split at hok
          · exact absurd hok (by simp)
          · split at hok
            · exact absurd hok (by simp)
            · simp only [Except.ok.injEq, Prod.mk.injEq] at hok
              obtain ⟨hdb, _⟩ := hok
              subst hdb
              apply inv_setResource _ _ hinv
              have hr := hinv r hrmem
              cases hp : r.public with
              | false => simp [publicInvariant, hp]
              | true =>
                  simp only [publicInvariant, hp, Bool.not_true, Bool.false_or,
                    Bool.and_eq_true] at hr ⊢
                  simp [hr.1]

/-- Unproposing preserves the publication invariant: the resource ends
non-public. -/
theorem inv_unpropose_resource (u : User) (db db2 : DB) (rid : Nat) (r2 : Resource)
    (hinv : ∀ r ∈ db.resources, publicInvariant r = true)
    (hok : unpropose_resource u db rid = .ok (db2, r2)) :
    ∀ r ∈ db2.resources, publicInvariant r = true := by
  cases hf : db.getResource rid with
  | none =>
      simp only [unpropose_resource, hf] at hok
      exact absurd hok (by simp)
  | some r =>
      simp only [unpropose_resource, hf] at hok
      split at hok
      · exact absurd hok (by simp)
      · simp only [Except.ok.injEq, Prod.mk.injEq] at hok
        obtain ⟨hdb, _⟩ := hok
        subst hdb
        exact inv_setResource _ _ hinv rfl

/-- Publication preserves (and establishes) the publication invariant: the
published document has its owner cleared and both share lists emptied. -/
theorem inv_publish_resource (u : User) (db db2 : DB) (rid : Nat) (r2 : Resource)
    (hinv : ∀ r ∈ db.resources, publicInvariant r = true)
    (hok : publish_resource u db rid = .ok (db2, r2)) :
    ∀ r ∈ db2.resources, publicInvariant r = true := by
  cases hf : db.getResource rid with
  | none =>
      simp only [publish_resource, hf] at hok
      split at hok
      · exact absurd hok (by simp)
      · exact absurd hok (by simp)
  | some r =>
      simp only [publish_resource, hf] at hok
      split at hok
      · exact absurd hok (by simp)
      · split at hok
        · simp only [Except.ok.injEq, Prod.mk.injEq] at hok
          obtain ⟨hdb, _⟩ := hok
          subst hdb
          exact hinv
        · split at hok
          · exact absurd hok (by simp)
          · split at hok
            · exact absurd hok (by simp)
            · simp only [Except.ok.injEq, Prod.mk.injEq] at hok
              obtain ⟨hdb, _⟩ := hok
              subst hdb
              exact inv_setResource _ _ hinv rfl

/-- Unpublication preserves the publication invariant: the resource ends
non-public. -/
theorem inv_unpublish_resource (u : User) (db db2 : DB) (rid : Nat) (r2 : Resource)
    (hinv : ∀ r ∈ db.resources, publicInvariant r = true)
    (hok : unpublish_resource u db rid = .ok (db2, r2)) :
    ∀ r ∈ db2.resources, publicInvariant r = true := by
  cases hf : db.getResource rid with
  | none =>
      simp only [unpublish_resource, hf] at hok
      split at hok
      · exact absurd hok (by simp)
      · exact absurd hok (by simp)
  | some r =>
      simp only [unpublish_resource, hf] at hok
      split at hok
      · exact absurd hok (by simp)
      · simp only [Except.ok.injEq, Prod.mk.injEq] at hok
        obtain ⟨hdb, _⟩ := hok
        subst hdb
        exact inv_setResource _ _ hinv rfl

/-- Transfer preserves the publication invariant: the success path starts
from a non-public resource and keeps it non-public. -/
theorem inv_transfer_resource (u : User) (m : Nat) (db db2 : DB) (rid tid : Nat)
    (r2 : Resource)
    (hinv : ∀ r ∈ db.resources, publicInvariant r = true)
    (hok : transfer_resource u m db rid tid = .ok (db2, r2)) :
    ∀ r ∈ db2.resources, publicInvariant r = true := by
  cases hf : db.getResource rid with
  | none =>
      simp only [transfer_resource, hf] at hok
      exact absurd hok (by simp)
  | some r =>
      cases htu : db.users.find? (fun x => x.id == tid) with
      | none =>
          simp only [transfer_resource, hf, htu] at hok
          split at hok
          · exact absurd hok (by simp)
          · split at hok
            · exact absurd hok (by simp)
            · exact absurd hok (by simp)
      | some target =>
          simp only [transfer_resource, hf, htu] at hok
          split at hok
          · exact absurd hok (by simp)
          · split at hok
            · exact absurd hok (by simp)
            · rename_i hguard
              split at hok
              · simp only [Except.ok.injEq, Prod.mk.injEq] at hok
                obtain ⟨hdb, _⟩ := hok
                subst hdb
                exact hinv
              · split at hok
                · exact absurd hok (by simp)
                · simp only [Except.ok.injEq, Prod.mk.injEq] at hok
                  obtain ⟨hdb, _⟩ := hok
                  subst hdb
                  apply inv_setResource _ _ hinv
                  have hp : r.public = false := by
                    cases hc : r.public
                    · rfl
                    · exact absurd (by rw [hc]; simp) hguard
                  simp [publicInvariant, hp]

/-- Deletion preserves the publication invariant: surviving documents are
either untouched or only have their `original` reference cleared, which
the invariant does not read. -/
theorem inv_delete_resource (u : User) (db db2 : DB) (rid : Nat)
    (hinv : ∀ r ∈ db.resources, publicInvariant r = true)
    (hok : delete_resource u db rid = .ok db2) :
    ∀ r ∈ db2.resources, publicInvariant r = true := by
  cases hf : db.getResource rid with
  | none =>
      simp only [delete_resource, hf] at hok
      exact absurd hok (by simp)
  | some r =>
      simp only [delete_resource, hf] at hok
      split at hok
      · exact absurd hok (by simp)
      · split at hok
        · exact absurd hok (by simp)
        · split at hok
          · exact absurd hok (by simp)
          · simp only [Except.ok.injEq] at hok
            subst hok
            intro x hx
            rw [List.mem_filter] at hx
            obtain ⟨hx, _⟩ := hx
            rw [List.mem_map] at hx
            obtain ⟨y, hy, heq⟩ := hx
            subst heq
            split
            · exact hinv y hy
            · exact hinv y hy


/-- C1: every lifecycle operation preserves the publication invariant:
whenever all resources satisfy `public ⇒ owner = null ∧ shares = []`
before an operation, all resources satisfy it after the operation; the
operations that make a resource public establish the consequent
themselves. -/
theorem claim_c1_public_invariant (op : LifecycleOp) (u : User)
    (maxResourcesPerUser : Nat) (db db2 : DB)
    (hinv : ∀ r ∈ db.resources, publicInvariant r = true)
    (hok : runLifecycleOp op u maxResourcesPerUser db = .ok db2) :
    ∀ r ∈ db2.resources, publicInvariant r = true := by
  cases op with
  | createOp body =>
      simp only [runLifecycleOp] at hok
      cases hcr : create_resource u maxResourcesPerUser db body with
      | error e => rw [hcr] at hok; exact absurd hok (by simp [Except.map])
      | ok p =>
          rw [hcr] at hok
          simp only [Except.map, Except.ok.injEq] at hok
          subst hok
          exact inv_create_resource u maxResourcesPerUser db p.1 body p.2 hinv hcr
  | createVersion rid =>
      simp only [runLifecycleOp] at hok
      cases hcr : create_resource_version u maxResourcesPerUser db rid with
      | error e => rw [hcr] at hok; exact absurd hok (by simp [Except.map])
      | ok p =>
          rw [hcr] at hok
          simp only [Except.map, Except.ok.injEq] at hok
          subst hok
          exact inv_create_resource_version u maxResourcesPerUser db p.1 rid p.2 hinv hcr
  | updateOp rid upd =>
      simp only [runLifecycleOp] at hok
      cases hcr : update_resource u db rid upd with
      | error e => rw [hcr] at hok; exact absurd hok (by simp [Except.map])
      | ok p =>
          rw [hcr] at hok
          simp only [Except.map, Except.ok.injEq] at hok
          subst hok
          exact inv_update_resource u db p.1 rid upd p.2 hinv hcr
  | propose rid =>
      simp only [runLifecycleOp] at hok
      cases hcr : propose_resource u db rid with
      | error e => rw [hcr] at hok; exact absurd hok (by simp [Except.map])
      | ok p =>
          rw [hcr] at hok
          simp only [Except.map, Except.ok.injEq] at hok
          subst hok
          exact inv_propose_resource u db p.1 rid p.2 hinv hcr
  | unpropose rid =>
      simp only [runLifecycleOp] at hok
      cases hcr : unpropose_resource u db rid with
      | error e => rw [hcr] at hok; exact absurd hok (by simp [Except.map])
      | ok p =>
          rw [hcr] at hok
          simp only [Except.map, Except.ok.injEq] at hok
          subst hok
          exact inv_unpropose_resource u db p.1 rid p.2 hinv hcr
  | publish rid =>
      simp only [runLifecycleOp] at hok
      cases hcr : publish_resource u db rid with
      | error e => rw [hcr] at hok; exact absurd hok (by simp [Except.map])
      | ok p =>
          rw [hcr] at hok
          simp only [Except.map, Except.ok.injEq] at hok
          subst hok
          exact inv_publish_resource u db p.1 rid p.2 hinv hcr
  | unpublish rid =>
      simp only [runLifecycleOp] at hok
      cases hcr : unpublish_resource u db rid with
      | error e => rw [hcr] at hok; exact absurd hok (by simp [Except.map])
      | ok p =>
          rw [hcr] at hok
          simp only [Except.map, Except.ok.injEq] at hok
          subst hok
          exact inv_unpublish_resource u db p.1 rid p.2 hinv hcr
  | transfer rid tid =>
      simp only [runLifecycleOp] at hok
      cases hcr : transfer_resource u maxResourcesPerUser db rid tid with
      | error e => rw [hcr] at hok; exact absurd hok (by simp [Except.map])
      | ok p =>
          rw [hcr] at hok
          simp only [Except.map, Except.ok.injEq] at hok
          subst hok
          exact inv_transfer_resource u maxResourcesPerUser db p.1 rid tid p.2 hinv hcr
  | deleteOp rid =>
      simp only [runLifecycleOp] at hok
      exact inv_delete_resource u db db2 rid hinv hok

/-- C1 witness: publishing the proposed sample resource through the
operation wrapper preserves the invariant on the sample state. -/
theorem claim_c1_public_invariant_witness :
    (((dbW.setResource { rPriv with proposed := true }).setResource
        { rPriv with public := true, proposed := false, ownerId := none,
                     sharedRead := [], sharedWrite := [] }).resources.all
      publicInvariant) = true := by
  rw [List.all_eq_true]
  exact claim_c1_public_invariant (.publish 5) uSuper 10
    (dbW.setResource { rPriv with proposed := true }) _ (by decide) rfl

end Tekst
